import Mathlib

/-!
Verification of the SessionAnimator core of `get-pwned-bozo` (src/main.go).

The program serves an animated, rainbow-colored ASCII-art banner over SSH.
Its core is a Bubble Tea `model` with an `Update` transition over resize,
key-press and tick messages, a `View` that composes the rainbow banner, an
IP line and a quit hint, and the `lolcat` per-rune rainbow renderer.

Machine integers and colors: the Go code stores hue/saturation/value as
float64, but every hue value the program produces is obtained from the
integer-valued constants `step = 40.0`, `gradient = 6.0`, `angle = 6.0`
and the initial hue 0 by exact addition and wrapping modulo 360, so the
embedding uses `ℚ` for color components, where this arithmetic is exact.
-/

namespace GetPwnedBozo

/-- The per-tick hue step, constant `step = 40.0` in src/main.go. -/
def step : ℚ := 40

/-- The per-character hue gradient, constant `gradient = 6.0` in src/main.go. -/
def gradient : ℚ := 6

/-- The per-row hue angle, constant `angle = 6.0` in src/main.go. -/
def angle : ℚ := 6

/-- The ASCII-art banner, constant `graphic` in src/main.go (a Go raw string
that ends in a newline). -/
def graphic : String := "⠀⠀⠀⠀⠀⠀⠀⠀⠀⠀⠀⠀⠀⠀⣀⠀⠀⠀⠀⠀⠀⠀⠀⠀\n⠀⠀⠀⢠⡾⠲⠶⣤⣀⣠⣤⣤⣤⡿⠛⠿⡴⠾⠛⢻⡆⠀⠀⠀  _____      __    ___                        __  \n⠀⠀⠀⣼⠁⠀⠀ ⠉⠁⠀⢀⣿⠐⡿⣿⠿⣶⣤⣤⣷⡀⠀⠀⠀/ ___/___  / /_  / _ \\ _    __ ___  ___  ___/ /  \n⠀⠀⠀⢹⡶⠀⠀⠀⠀⠀⠀⠈⢯⣡⣿⣿⣀⣸⣿⣦⢓⡟⠀⠀/ (_ // -_)/ __/ / ___/| |/|/ // _ \\/ -_)/ _  /   \n⠀⠀⢀⡿⠀⠀⠀⠀⠀⠀⠀⠀⠀⠀⠀⠈⠉⠹⣍⣭⣾⠁⠀ \\___/ \\__/ \\__/ /_/    |__,__//_//_/\\__/ \\_,_/⠀\n⠀⣀⣸⣇⠀⠀⠀⠀⠀⠀⠀⠀⠀⠀⠀⠀⠀⠀⠀⢀⣸⣷⣤⡀   ___                       \n⠈⠉⠹⣏⡁⠀⢸⣿⠀⠀⠀⢀⡀⠀⠀⠀⣿⠆⠀⢀⣸⣇⣀⠀  / _ ) ___  ___ ___ ___      \n⠀⠐⠋⢻⣅⣄⢀⣀⣀⡀⠀⠯⠽⠂⢀⣀⣀⡀⠀⣤⣿⠀⠉⠀ / _  |/ _ \\/_ //_ // _ \\     \n⠀⠀⠴⠛⠙⣳⠋⠉⠉⠙⣆⠀⠀⢰⡟⠉⠈⠙⢷⠟⠉⠙⠂⠀/____/ \\___//__//__/\\___/     \n⠀⠀⠀⠀⠀⢻⣄⣠⣤⣴⠟⠛⠛⠛⢧⣤⣤⣀⡾⠁⠀⠀⠀⠀\n"

/-- Wrap a rational hue into the interval `[0, 360)`: the remainder of `h`
modulo 360. -/
def wrapHue (h : ℚ) : ℚ := h - 360 * ⌊h / 360⌋

/-- Modelled from the spec: the color value of the external `noire` library
(`noire.Color`), which src/main.go only ever builds via `noire.NewHSV` and
transforms via `AdjustHue`. Spec §3 describes `baseColor` as an HSV triple
with hue ∈ [0,360). -/
structure NoireColor where
  hue : ℚ
  saturation : ℚ
  value : ℚ
deriving DecidableEq

/-- Modelled from the spec: `noire.NewHSV` builds a color from an HSV triple
(spec §3: initial color is hue=0, sat=66, value=100 built this way). -/
def NewHSV (h s v : ℚ) : NoireColor := ⟨h, s, v⟩

/-- Modelled from the spec: `noire.Color.AdjustHue` — hue rotation, defined by
the spec's glossary as "incrementing the hue component of an HSV color by a
fixed degree amount, wrapping modulo 360"; saturation and value are untouched,
and by the §3 invariant the resulting hue is normalized into [0,360). -/
def NoireColor.AdjustHue (c : NoireColor) (degrees : ℚ) : NoireColor :=
  { c with hue := wrapHue (c.hue + degrees) }

/-- Modelled from the spec: the external styling primitive (`lipgloss.Style`),
reduced to what src/main.go uses of it: an optional foreground color. The
plain `renderer.NewStyle()` has no foreground; `txtStyle` and `quitStyle`
carry the palette colors "10" and "8". -/
structure Style where
  foreground : Option String := none
deriving DecidableEq

/-- Modelled from the spec: `lipgloss.Style.Foreground` returns a copy of the
style with the given foreground color set. -/
def Style.Foreground (s : Style) (c : String) : Style :=
  { s with foreground := some c }

/-- Modelled from the spec: the styling primitive "applies a foreground color +
text to produce a platform-appropriate styled string (e.g., ANSI escape
sequences)"; modelled as a deterministic wrapping of the text in an escape
sequence naming the foreground. With no foreground set, the text is emitted
as is. -/
def Style.Render (s : Style) (text : String) : String :=
  match s.foreground with
  | none => text
  | some c => "\x1b[38;" ++ c ++ "m" ++ text ++ "\x1b[0m"

/-- Modelled from the spec: `noire.Color.Hex` / the spec's external
`hsvToHex(hue,sat,val)` collaborator. The numeric conversion formula belongs
to the opaque external color library; it is modelled as an injective,
deterministic encoding of the HSV triple. -/
def NoireColor.Hex (c : NoireColor) : String :=
  toString c.hue ++ ";" ++ toString c.saturation ++ ";" ++ toString c.value

/-- `noireColorToLipglossColor` from src/main.go:
`lipgloss.Color(fmt.Sprintf("#%s", color.Hex()))`. -/
def noireColorToLipglossColor (color : NoireColor) : String :=
  "#" ++ color.Hex

/-- The session's remote network address (`net.Addr`): either the concrete
type `*net.TCPAddr` (carrying the textual form of its IP, which is what
`model.View` prints), or a value of any other `net.Addr` implementation. -/
inductive Addr where
  | tcp (ip : String)
  | other (descr : String)
deriving DecidableEq

/-- The `model` struct from src/main.go. `tick` is a Go `uint`, embedded as
`Nat`; `address` is the `net.Addr` interface value. -/
structure Model where
  term : String
  address : Addr
  width : Int
  height : Int
  tick : Nat
  color : NoireColor
  style : Style
  txtStyle : Style
  quitStyle : Style
deriving DecidableEq

/-- The message shapes `model.Update`'s type switch dispatches on:
`tea.WindowSizeMsg`, `tea.KeyMsg` (carrying the key's `String()` form) and
`tickMsg` (a `uint`). `other` stands for a message value of any shape not
handled by the switch, carrying an opaque payload. -/
inductive Msg where
  | windowSize (width height : Int)
  | key (s : String)
  | tick (n : Nat)
  | other (payload : String)
deriving DecidableEq

/-- The only non-nil command the program ever returns: `tea.Quit`. -/
inductive Cmd where
  | quit
deriving DecidableEq

/-- `model.Update` from src/main.go: a `WindowSizeMsg` sets height and width;
a `KeyMsg` whose string is "q" or "ctrl+c" returns the unchanged model with
`tea.Quit`; a `tickMsg` stores the count and rotates the color's hue by
`step`; everything else falls through to `return m, nil`. -/
def Model.Update (m : Model) (msg : Msg) : Model × Option Cmd :=
  match msg with
  | Msg.windowSize w h => ({ m with height := h, width := w }, none)
  | Msg.key s =>
      if s = "q" ∨ s = "ctrl+c" then (m, some Cmd.quit) else (m, none)
  | Msg.tick n => ({ m with tick := n, color := m.color.AdjustHue step }, none)
  | Msg.other _ => (m, none)

/-- The loop of `lolcat` from src/main.go, recursing over the runes of the
message with the two color cursors `rowColor` and `charColor`: a newline is
written unstyled and resets `charColor` to the advanced `rowColor`; any other
rune is written styled from `charColor`, which then advances by `gradient`. -/
def lolcatLoop (style : Style) : List Char → NoireColor → NoireColor → String
  | [], _, _ => ""
  | c :: cs, rowColor, charColor =>
      if c = '\n' then
        String.singleton c
          ++ lolcatLoop style cs (rowColor.AdjustHue angle) (rowColor.AdjustHue angle)
      else
        (style.Foreground (noireColorToLipglossColor charColor)).Render (String.singleton c)
          ++ lolcatLoop style cs rowColor (charColor.AdjustHue gradient)

/-- `lolcat` from src/main.go: iterates `[]rune(msg)` with both cursors
starting at the initial color, accumulating the output string. -/
def lolcat (msg : String) (initialColor : NoireColor) (style : Style) : String :=
  lolcatLoop style msg.toList initialColor initialColor

/-- `model.View` from src/main.go. The Go code evaluates
`m.address.(*net.TCPAddr).IP`, an unchecked type assertion that panics when
the address's concrete type is not `*net.TCPAddr`; the panic is modelled as
`none`. -/
def Model.View (m : Model) : Option String :=
  match m.address with
  | Addr.tcp ip =>
      some (lolcat graphic m.color m.style
        ++ "\n" ++ m.txtStyle.Render ("Your IP is " ++ ip)
        ++ "\n" ++ m.quitStyle.Render "Press 'q' to quit\n")
  | Addr.other _ => none

/-- The render state built in `teaHandler` (src/main.go) at session start:
`color = noire.NewHSV(0, 66, 100)`, the `tick` field left at Go's zero
value. -/
def initialModel (term : String) (address : Addr) (width height : Int)
    (style txtStyle quitStyle : Style) : Model :=
  { term := term, address := address, width := width, height := height,
    tick := 0, color := NewHSV 0 66 100,
    style := style, txtStyle := txtStyle, quitStyle := quitStyle }

/-- Fold a sequence of tick messages through `Model.Update`, keeping the
state and discarding the commands (which are all nil on ticks). -/
def applyTicks (m : Model) (counts : List Nat) : Model :=
  counts.foldl (fun acc n => (acc.Update (Msg.tick n)).1) m

/-- The emission relation of the `lolcat` loop: one constructor per branch of
the loop in src/main.go, relating the remaining runes and the two color
cursors to an output string. Used to state that the renderer is
deterministic: the relation admits at most one output per input. -/
inductive LolcatEmits (style : Style) : List Char → NoireColor → NoireColor → String → Prop
  | nil (row char : NoireColor) : LolcatEmits style [] row char ""
  | newline (cs : List Char) (row char : NoireColor) (out : String)
      (h : LolcatEmits style cs (row.AdjustHue angle) (row.AdjustHue angle) out) :
      LolcatEmits style ('\n' :: cs) row char (String.singleton '\n' ++ out)
  | chr (c : Char) (cs : List Char) (row char : NoireColor) (out : String)
      (hc : ¬ c = '\n')
      (h : LolcatEmits style cs row (char.AdjustHue gradient) out) :
      LolcatEmits style (c :: cs) row char
        ((style.Foreground (noireColorToLipglossColor char)).Render (String.singleton c) ++ out)

/-- A concrete sample render state, as `teaHandler` would build it for a
session from 127.0.0.1 on an xterm with an 80×24 window. -/
def sampleModel : Model :=
  initialModel "xterm-256color" (Addr.tcp "127.0.0.1") 80 24
    ⟨none⟩ ⟨some "10"⟩ ⟨some "8"⟩

/-! ### Arithmetic of the hue wrap -/

/-- `wrapHue` is 360 times the fractional part of `h / 360`. -/
theorem wrapHue_eq_fract (h : ℚ) : wrapHue h = 360 * Int.fract (h / 360) := by
  unfold wrapHue Int.fract
  ring

/-- The wrapped hue is nonnegative. -/
theorem wrapHue_nonneg (h : ℚ) : 0 ≤ wrapHue h := by
  rw [wrapHue_eq_fract]
  exact mul_nonneg (by norm_num) (Int.fract_nonneg _)

/-- The wrapped hue is below 360. -/
theorem wrapHue_lt (h : ℚ) : wrapHue h < 360 := by
  rw [wrapHue_eq_fract]
  have h1 := Int.fract_lt_one (h / 360)
  nlinarith [h1]

/-- Wrapping only subtracts an integer multiple of 360. -/
theorem wrapHue_sub_int (h : ℚ) : ∃ k : ℤ, h - wrapHue h = 360 * k :=
  ⟨⌊h / 360⌋, by unfold wrapHue; ring⟩

/-- Wrapping is invariant under adding integer multiples of 360. -/
theorem wrapHue_add_int_mul (h : ℚ) (k : ℤ) : wrapHue (h + 360 * k) = wrapHue h := by
  unfold wrapHue
  have hd : (h + 360 * k) / 360 = h / 360 + k := by
    field_simp
    ring
  rw [hd, Int.floor_add_int]
  push_cast
  ring

/-- A hue already in `[0, 360)` is left unchanged by wrapping. -/
theorem wrapHue_eq_self (h : ℚ) (h0 : 0 ≤ h) (h1 : h < 360) : wrapHue h = h := by
  unfold wrapHue
  have hz : ⌊h / 360⌋ = 0 := by
    apply Int.floor_eq_zero_iff.mpr
    rw [Set.mem_Ico]
    refine ⟨by positivity, ?_⟩
    rw [div_lt_one (by norm_num : (0:ℚ) < 360)]
    linarith
  rw [hz]
  simp

/-- Wrapping composes: wrapping an already-wrapped value shifted by `b` is the
same as wrapping the total shift. -/
theorem wrapHue_wrapHue_add (a b : ℚ) : wrapHue (wrapHue a + b) = wrapHue (a + b) := by
  obtain ⟨k, hk⟩ := wrapHue_sub_int a
  have hab : wrapHue a + b = (a + b) + 360 * (-k : ℤ) := by
    push_cast
    linarith
  rw [hab, wrapHue_add_int_mul]

/-! ### Behavior of the transition function -/

/-- No message changes the `address` field: the three handled shapes touch
only width/height, tick/color, or nothing, and unknown shapes fall through. -/
theorem update_preserves_address (m : Model) (msg : Msg) :
    (m.Update msg).1.address = m.address := by
  cases msg with
  | windowSize w h => rfl
  | key s =>
      show (if s = "q" ∨ s = "ctrl+c" then (m, some Cmd.quit) else (m, none)).1.address
        = m.address
      split <;> rfl
  | tick n => rfl
  | other p => rfl

/-- The hue after folding any list of tick messages from a state with a
normalized hue: the initial hue advanced by `step` per tick, wrapped. -/
theorem applyTicks_hue (counts : List Nat) :
    ∀ m : Model, 0 ≤ m.color.hue → m.color.hue < 360 →
    (applyTicks m counts).color.hue
      = wrapHue (m.color.hue + (counts.length : ℚ) * step) := by
  induction counts with
  | nil =>
      intro m h0 h1
      simp only [applyTicks, List.foldl_nil, List.length_nil, Nat.cast_zero, zero_mul,
        add_zero]
      exact (wrapHue_eq_self _ h0 h1).symm
  | cons n rest ih =>
      intro m h0 h1
      have hstep : applyTicks m (n :: rest) = applyTicks ((m.Update (Msg.tick n)).1) rest := rfl
      have hh : ((m.Update (Msg.tick n)).1).color.hue = wrapHue (m.color.hue + step) := rfl
      rw [hstep, ih _ (by rw [hh]; exact wrapHue_nonneg _) (by rw [hh]; exact wrapHue_lt _),
        hh, wrapHue_wrapHue_add]
      congr 1
      push_cast [List.length_cons]
      ring

/-! ### The emission relation of the lolcat loop -/

/-- The output computed by the lolcat loop is an emission of the relation. -/
theorem run_emits (style : Style) :
    ∀ (cs : List Char) (row char : NoireColor),
    LolcatEmits style cs row char (lolcatLoop style cs row char) := by
  intro cs
  induction cs with
  | nil => intro row char; exact LolcatEmits.nil row char
  | cons c cs ih =>
      intro row char
      rcases eq_or_ne c '\n' with hc | hc
      · subst hc
        exact LolcatEmits.newline cs row char _ (ih _ _)
      · have hrun : lolcatLoop style (c :: cs) row char
            = (style.Foreground (noireColorToLipglossColor char)).Render (String.singleton c)
              ++ lolcatLoop style cs row (char.AdjustHue gradient) := by
          simp only [lolcatLoop, if_neg hc]
        rw [hrun]
        exact LolcatEmits.chr c cs row char _ hc (ih _ _)

/-- Every emission of the relation equals the output computed by the loop. -/
theorem emits_eq_run (style : Style) {cs : List Char} {row char : NoireColor}
    {o : String} (h : LolcatEmits style cs row char o) :
    o = lolcatLoop style cs row char := by
  induction h with
  | nil row char => rfl
  | newline cs row char out h ih =>
      rw [ih]
      rfl
  | chr c cs row char out hc h ih =>
      rw [ih]
      simp only [lolcatLoop, if_neg hc]

/-! ### The claims -/

/-- C1: processing a Tick event carrying count `n` sets the state's `tick`
field to `n` and replaces the base color by the same color with its hue
rotated by exactly `step = 40` degrees, wrapped modulo 360 (the result lies
in `[0, 360)` and saturation/value are untouched); every other field is
unchanged and the returned command is nil, so the session continues. -/
theorem tick_sets_count_and_rotates_hue (m : Model) (n : Nat) :
    (m.Update (Msg.tick n)).1.tick = n
    ∧ (m.Update (Msg.tick n)).1.color.hue = wrapHue (m.color.hue + step)
    ∧ 0 ≤ (m.Update (Msg.tick n)).1.color.hue
    ∧ (m.Update (Msg.tick n)).1.color.hue < 360
    ∧ (m.Update (Msg.tick n)).1.color.saturation = m.color.saturation
    ∧ (m.Update (Msg.tick n)).1.color.value = m.color.value
    ∧ (m.Update (Msg.tick n)).1.term = m.term
    ∧ (m.Update (Msg.tick n)).1.address = m.address
    ∧ (m.Update (Msg.tick n)).1.width = m.width
    ∧ (m.Update (Msg.tick n)).1.height = m.height
    ∧ (m.Update (Msg.tick n)).1.style = m.style
    ∧ (m.Update (Msg.tick n)).1.txtStyle = m.txtStyle
    ∧ (m.Update (Msg.tick n)).1.quitStyle = m.quitStyle
    ∧ (m.Update (Msg.tick n)).2 = none :=
  ⟨rfl, rfl, wrapHue_nonneg _, wrapHue_lt _, rfl, rfl, rfl, rfl, rfl, rfl, rfl, rfl, rfl, rfl⟩

/-- C2: the rainbow renderer iterates the text by code points with the two
cursors `rowColor` and `charColor`, both starting at the initial color; a
newline is emitted unstyled, after which `rowColor` advances by `angle` and
`charColor` is reset to `rowColor` without a gradient advance; any other
character is emitted styled with the foreground derived from `charColor`,
which then advances by `gradient`; on the two-character text consisting of
two newlines, `lolcat` emits exactly the two unstyled newlines, and the loop
continues (for any further runes) from `rowColor` advanced twice by `angle`,
independent of `gradient`. -/
theorem lolcat_iteration_rules (msg : String) (c : Char) (cs rest : List Char)
    (row char init : NoireColor) (style : Style) :
    lolcat msg init style = lolcatLoop style msg.toList init init
    ∧ lolcatLoop style (c :: cs) row char =
        (if c = '\n'
         then "\n" ++ lolcatLoop style cs (row.AdjustHue angle) (row.AdjustHue angle)
         else (style.Foreground (noireColorToLipglossColor char)).Render (String.singleton c)
                ++ lolcatLoop style cs row (char.AdjustHue gradient))
    ∧ lolcat "\n\n" init style = "\n\n"
    ∧ lolcatLoop style ('\n' :: '\n' :: rest) init init =
        "\n\n" ++ lolcatLoop style rest ((init.AdjustHue angle).AdjustHue angle)
                                        ((init.AdjustHue angle).AdjustHue angle) := by
  refine ⟨rfl, ?_, rfl, rfl⟩
  rcases eq_or_ne c '\n' with hc | hc
  · subst hc
    rfl
  · simp only [lolcatLoop, if_neg hc]

/-- C3: in the running state, a key press of "q" or of "ctrl+c" returns the
quit command (Terminate), and a key press of any other key returns the state
completely unchanged with a nil command (the session stays in Running). -/
theorem quit_keys_terminate (m : Model) (k : String) :
    m.Update (Msg.key "q") = (m, some Cmd.quit)
    ∧ m.Update (Msg.key "ctrl+c") = (m, some Cmd.quit)
    ∧ (k ≠ "q" → k ≠ "ctrl+c" → m.Update (Msg.key k) = (m, none)) := by
  refine ⟨rfl, rfl, fun h1 h2 => ?_⟩
  have hor : ¬ (k = "q" ∨ k = "ctrl+c") := by
    rintro (h | h)
    · exact h1 h
    · exact h2 h
  show (if k = "q" ∨ k = "ctrl+c" then (m, some Cmd.quit) else (m, none)) = (m, none)
  rw [if_neg hor]

/-- C3 witness: a concrete state and the non-quit key "x". -/
theorem quit_keys_terminate_witness :
    sampleModel.Update (Msg.key "q") = (sampleModel, some Cmd.quit)
    ∧ sampleModel.Update (Msg.key "ctrl+c") = (sampleModel, some Cmd.quit)
    ∧ ("x" ≠ "q" → "x" ≠ "ctrl+c" → sampleModel.Update (Msg.key "x") = (sampleModel, none)) :=
  quit_keys_terminate sampleModel "x"

/-- C4: rotating a color's hue by any amount `d` yields exactly
`(hue + d) mod 360`: the new hue differs from `hue + d` by an integer
multiple of 360 and always lies in the interval `[0, 360)`; this covers every
rotation the program performs (`step = 40` per tick, `angle = 6` per row,
`gradient = 6` per character). -/
theorem adjustHue_is_mod360 (c : NoireColor) (d : ℚ) :
    (c.AdjustHue d).hue = wrapHue (c.hue + d)
    ∧ 0 ≤ (c.AdjustHue d).hue
    ∧ (c.AdjustHue d).hue < 360
    ∧ ∃ k : ℤ, c.hue + d - (c.AdjustHue d).hue = 360 * k :=
  ⟨rfl, wrapHue_nonneg _, wrapHue_lt _, wrapHue_sub_int (c.hue + d)⟩

/-- C5: from any state with a normalized hue, folding `N` consecutive tick
events (whatever their counts) yields a state whose hue is the initial hue
plus `N * step`, wrapped modulo 360; in particular, from the initial session
state (hue 0), after 3 ticks the hue is 120. -/
theorem ticks_advance_hue_linearly (m : Model) (counts : List Nat)
    (h0 : 0 ≤ m.color.hue) (h1 : m.color.hue < 360) :
    (applyTicks m counts).color.hue
      = wrapHue (m.color.hue + (counts.length : ℚ) * step)
    ∧ (applyTicks (initialModel "t" (Addr.tcp "ip") 0 0 ⟨none⟩ ⟨none⟩ ⟨none⟩)
        [1, 2, 3]).color.hue = 120 := by
  refine ⟨applyTicks_hue counts m h0 h1, ?_⟩
  have h := applyTicks_hue [1, 2, 3]
    (initialModel "t" (Addr.tcp "ip") 0 0 ⟨none⟩ ⟨none⟩ ⟨none⟩)
    (by norm_num [initialModel, NewHSV])
    (by norm_num [initialModel, NewHSV])
  rw [h]
  norm_num [initialModel, NewHSV, wrapHue, step]

/-- C5 witness: a concrete state with hue 0 and a single tick. -/
theorem ticks_advance_hue_linearly_witness :
    (applyTicks sampleModel [7]).color.hue
      = wrapHue (sampleModel.color.hue + (([7] : List Nat).length : ℚ) * step)
    ∧ (applyTicks (initialModel "t" (Addr.tcp "ip") 0 0 ⟨none⟩ ⟨none⟩ ⟨none⟩)
        [1, 2, 3]).color.hue = 120 :=
  ticks_advance_hue_linearly sampleModel [7]
    (by norm_num [sampleModel, initialModel, NewHSV])
    (by norm_num [sampleModel, initialModel, NewHSV])

/-- C6: processing a Resize event with dimensions `(w, h)` produces a state
whose `width` and `height` equal `w` and `h`, while the terminal type, the
remote address, the tick count, the base color and all three styles are
unchanged, and the returned command is nil (the session continues, the color
untouched). -/
theorem resize_updates_dimensions_only (m : Model) (w h : Int) :
    (m.Update (Msg.windowSize w h)).1.width = w
    ∧ (m.Update (Msg.windowSize w h)).1.height = h
    ∧ (m.Update (Msg.windowSize w h)).1.term = m.term
    ∧ (m.Update (Msg.windowSize w h)).1.address = m.address
    ∧ (m.Update (Msg.windowSize w h)).1.tick = m.tick
    ∧ (m.Update (Msg.windowSize w h)).1.color = m.color
    ∧ (m.Update (Msg.windowSize w h)).1.style = m.style
    ∧ (m.Update (Msg.windowSize w h)).1.txtStyle = m.txtStyle
    ∧ (m.Update (Msg.windowSize w h)).1.quitStyle = m.quitStyle
    ∧ (m.Update (Msg.windowSize w h)).2 = none :=
  ⟨rfl, rfl, rfl, rfl, rfl, rfl, rfl, rfl, rfl, rfl⟩

/-- C7 counterexample: not every render state has a view output at all — for a
state whose remote address is not a TCP address, `model.View` fails on its
type assertion instead of producing the three sections. -/
theorem view_output_missing_on_non_tcp :
    Model.View
      { term := "vt100", address := Addr.other "pipe:0",
        width := 40, height := 12, tick := 5, color := NewHSV 120 66 100,
        style := ⟨none⟩, txtStyle := ⟨some "10"⟩, quitStyle := ⟨some "8"⟩ }
      = none := rfl

/-- C7 (amended): for a state whose remote address is a TCP address, the view output is
the concatenation of exactly three sections in order — the rainbow-rendered
banner graphic with the current base color as lolcat's initial color, the
line reporting the remote IP address, and the styled hint line — each
consecutive pair separated by exactly one newline character. -/
theorem view_three_sections (m : Model) (ip : String) (haddr : m.address = Addr.tcp ip) :
    m.View = some (lolcat graphic m.color m.style
      ++ "\n" ++ m.txtStyle.Render ("Your IP is " ++ ip)
      ++ "\n" ++ m.quitStyle.Render "Press 'q' to quit\n") := by
  unfold Model.View
  rw [haddr]

/-- C7 witness: the sample state from 127.0.0.1. -/
theorem view_three_sections_witness :
    sampleModel.View = some (lolcat graphic sampleModel.color sampleModel.style
      ++ "\n" ++ sampleModel.txtStyle.Render ("Your IP is " ++ "127.0.0.1")
      ++ "\n" ++ sampleModel.quitStyle.Render "Press 'q' to quit\n") :=
  view_three_sections sampleModel "127.0.0.1" rfl

/-- C8 counterexample: a render state whose remote address is not a
`*net.TCPAddr`; the unchecked type assertion in `model.View` fails there, so
the render core is not failure-free for every concrete address type. -/
theorem view_fails_on_non_tcp_address :
    Model.View
      { term := "xterm-256color", address := Addr.other "@unix-socket",
        width := 80, height := 24, tick := 0, color := NewHSV 0 66 100,
        style := ⟨none⟩, txtStyle := ⟨some "10"⟩, quitStyle := ⟨some "8"⟩ }
      = none := rfl

/-- C8 (amended): the update transition never fails for any state and message,
and it preserves the remote address; consequently, for every state whose
remote address is a TCP address — as in every state reachable from a session
start over TCP — both the view and the view of any successor state return a
rendered string without failing. -/
theorem core_no_failure_on_tcp (m : Model) (msg : Msg) (ip : String)
    (haddr : m.address = Addr.tcp ip) :
    (m.Update msg).1.address = m.address
    ∧ m.View.isSome = true
    ∧ ((m.Update msg).1.View).isSome = true := by
  refine ⟨update_preserves_address m msg, ?_, ?_⟩
  · unfold Model.View
    rw [haddr]
    rfl
  · unfold Model.View
    rw [update_preserves_address, haddr]
    rfl

/-- C8 witness: the sample TCP state under a tick message. -/
theorem core_no_failure_on_tcp_witness :
    (sampleModel.Update (Msg.tick 1)).1.address = sampleModel.address
    ∧ sampleModel.View.isSome = true
    ∧ ((sampleModel.Update (Msg.tick 1)).1.View).isSome = true :=
  core_no_failure_on_tcp sampleModel (Msg.tick 1) "127.0.0.1" rfl

/-- C9: the rainbow renderer is deterministic — any two outputs related to the
same text and same initial color by the loop's emission relation are equal,
and the output actually computed by `lolcat` is such an emission, so two
evaluations on the same arguments produce byte-identical strings. -/
theorem lolcat_deterministic (msg : String) (c : NoireColor) (style : Style)
    (o₁ o₂ : String)
    (h1 : LolcatEmits style msg.toList c c o₁)
    (h2 : LolcatEmits style msg.toList c c o₂) :
    o₁ = o₂ ∧ o₁ = lolcat msg c style := by
  have e1 := emits_eq_run style h1
  have e2 := emits_eq_run style h2
  exact ⟨e1.trans e2.symm, e1⟩

/-- C9 witness: two runs of the loop on the concrete text "A\n" with the
initial session color. -/
theorem lolcat_deterministic_witness :
    lolcat "A\n" (NewHSV 0 66 100) ⟨none⟩ = lolcat "A\n" (NewHSV 0 66 100) ⟨none⟩
    ∧ lolcat "A\n" (NewHSV 0 66 100) ⟨none⟩ = lolcat "A\n" (NewHSV 0 66 100) ⟨none⟩ :=
  lolcat_deterministic "A\n" (NewHSV 0 66 100) ⟨none⟩ _ _
    (run_emits ⟨none⟩ (String.toList "A\n") (NewHSV 0 66 100) (NewHSV 0 66 100))
    (run_emits ⟨none⟩ (String.toList "A\n") (NewHSV 0 66 100) (NewHSV 0 66 100))

/-- C10: a message of any shape other than the three handled ones (resize,
key press, tick) leaves the state completely unchanged and returns a nil
command: the session self-loops in Running on unknown events. -/
theorem unknown_message_self_loop (m : Model) (payload : String) :
    m.Update (Msg.other payload) = (m, none) := rfl

end GetPwnedBozo
